import Mathlib

/-!
Shallow embedding of the forecasting and insight core of the
finance-copilot repository, together with proofs of the specification
claims about it.

Part A embeds `src/models/forecast.py` (the DataFrame-oriented monthly
aggregator and the two forecast algorithms).  Part B embeds the
`src/finance_copilot` package (`transaction.py`, `analyzer.py`,
`forecaster.py`).  Monetary amounts and timestamps are modelled over `ℚ`
(the Python code computes with IEEE floats; the rational model is the
exact idealization of the same arithmetic).
-/

namespace FinanceCopilot

/-! ### Part A: `src/models/forecast.py` -/

/-- The calendar year-month of one parsed timestamp.  `pd.to_datetime`
produces full timestamps, but every downstream use in `forecast.py`
(`dt.to_period("M")`, `strftime("%Y-%m")`) reads only the year and month,
so the day and time-of-day are not modelled. -/
structure YMDate where
  year : ℕ
  month : ℕ
deriving DecidableEq, Repr

/-- One row of the input DataFrame as `prepare_monthly_data` sees it after
the two type coercions: `date` is `none` when `pd.to_datetime(..., errors="coerce")`
produced `NaT`, `amount` is `none` when `pd.to_numeric(..., errors="coerce")`
produced `NaN`.  The `ttype` field carries the record's debit/credit tag,
which `forecast.py` never reads. -/
structure RawRow where
  date : Option YMDate
  amount : Option ℚ
  ttype : String
deriving DecidableEq, Repr

/-- The distinct `ValueError`s raised in `models/forecast.py`, one
constructor per raise site. -/
inductive FErr where
  /-- "Missing 'date' column in transactions data." -/
  | missingDateColumn
  /-- "No 'amount' column found." (unreachable when the frame is built from
  a list of records, where both columns exist together) -/
  | missingAmountColumn
  /-- "No data available for forecasting." -/
  | noData
  /-- "Need at least 2 months of data for linear regression." -/
  | needTwoMonths
  /-- "Invalid method. Choose 'rolling' or 'linear'." -/
  | invalidMethod
deriving DecidableEq, Repr

/-- One row of the `monthly` frame returned by `prepare_monthly_data`:
columns `month` (here the period code), `amount`, `month_idx`. -/
structure MonthlyRow where
  month : ℕ
  amount : ℚ
  idx : ℕ
deriving DecidableEq, Repr

/-- `Period("M")` key of a parsed date, encoded so that the numeric order
of codes is the chronological order of year-months. -/
def rowPeriod (d : YMDate) : ℕ := d.year * 12 + (d.month - 1)

/-- Decode a period code back to its `(year, month)` pair; models the
`strftime("%Y-%m")` label of the period. -/
def monthLabel (p : ℕ) : ℕ × ℕ := (p / 12, p % 12 + 1)

/-- The row-cleaning step of `prepare_monthly_data`: coerce `date` and
`amount`, then `dropna(subset=["date", amount_col])`.  Surviving rows are
kept as `(period, amount)` pairs, the only two columns the rest of the
function reads. -/
def cleanRows (records : List RawRow) : List (ℕ × ℚ) :=
  records.filterMap fun r => r.date.bind fun d => r.amount.map fun a => (rowPeriod d, a)

/-- Total amount of the cleaned rows falling in period `p`
(`groupby(...)[amount_col].sum()` for one group). -/
def periodSum (rows : List (ℕ × ℚ)) (p : ℕ) : ℚ :=
  ((rows.filter fun x => x.1 = p).map Prod.snd).sum

/-- `prepare_monthly_data(transactions_df)`.  A DataFrame built from a
list of records has the `date`/`amount` columns exactly when the list is
non-empty, so the source's missing-column check fires on the empty batch.
`groupby` sorts the distinct period keys ascending; `month_idx` is
`np.arange(len(monthly))`. -/
def prepare_monthly_data (records : List RawRow) : Except FErr (List MonthlyRow) :=
  if records.isEmpty then .error .missingDateColumn
  else
    let rows := cleanRows records
    let periods := (rows.map Prod.fst).toFinset.sort (· ≤ ·)
    .ok (periods.enum.map fun ip => ⟨ip.2, periodSum rows ip.2, ip.1⟩)

/-- Round-half-to-even on `ℚ`, the idealization of Python's `round`. -/
def roundHalfEven (q : ℚ) : ℤ :=
  let f := ⌊q⌋
  let r := q - f
  if r < 1/2 then f else if 1/2 < r then f + 1 else if Even f then f else f + 1

/-- Python's `round(x, 2)`. -/
def pyRound2 (q : ℚ) : ℚ := (roundHalfEven (q * 100) : ℚ) / 100

/-- `forecast_rolling_trend(monthly_df, window=3)`.
`rolling(window, min_periods=1).mean().iloc[-1]` is the mean of the last
`min(window, n)` amounts; `diff()` yields `NaN` followed by the n-1 first
differences, `fillna(0)` turns the `NaN` into `0`, and `.mean()` divides
by the full length `n`. -/
def forecast_rolling_trend (monthly : List MonthlyRow) (window : ℕ := 3) : Except FErr ℚ :=
  if monthly.isEmpty then .error .noData
  else
    let amounts := monthly.map (·.amount)
    let rollingLast := (amounts.reverse.take window).sum / (min window amounts.length : ℕ)
    let diffs : List ℚ := (0 : ℚ) :: List.zipWith (· - ·) amounts.tail amounts
    let trend := diffs.sum / (amounts.length : ℕ)
    .ok (pyRound2 (rollingLast + trend))

/-- `forecast_linear_regression(monthly_df)`.  `sklearn.LinearRegression`
fits ordinary least squares; its closed form over the `(month_idx, amount)`
pairs is written out.  The prediction point is `month_idx.iloc[-1] + 1`. -/
def forecast_linear_regression (monthly : List MonthlyRow) : Except FErr ℚ :=
  if monthly.length < 2 then .error .needTwoMonths
  else
    let xs := monthly.map fun r => (r.idx : ℚ)
    let ys := monthly.map (·.amount)
    let n : ℚ := (monthly.length : ℕ)
    let sx := xs.sum
    let sy := ys.sum
    let sxx := (xs.map fun x => x * x).sum
    let sxy := (List.zipWith (· * ·) xs ys).sum
    let slope := (n * sxy - sx * sy) / (n * sxx - sx * sx)
    let intercept := (sy - slope * sx) / n
    let nextIdx : ℚ := ((monthly.map (·.idx)).getLastD 0 : ℕ) + 1
    .ok (pyRound2 (slope * nextIdx + intercept))

/-- The mapping returned by `get_forecast`. -/
structure ForecastOutput where
  predicted_next_month_amount : ℚ
  historical_months : List (ℕ × ℕ)
  historical_amounts : List ℚ
deriving DecidableEq, Repr

/-- `get_forecast(transactions_df, method)`: aggregate first, then
dispatch on the method string, then assemble the output mapping. -/
def get_forecast (records : List RawRow) (method : String) : Except FErr ForecastOutput :=
  match prepare_monthly_data records with
  | .error e => .error e
  | .ok monthly =>
    let fv : Except FErr ℚ :=
      if method = "rolling" then forecast_rolling_trend monthly
      else if method = "linear" then forecast_linear_regression monthly
      else .error .invalidMethod
    match fv with
    | .error e => .error e
    | .ok v =>
      .ok ⟨v, monthly.map fun r => monthLabel r.month, monthly.map (·.amount)⟩

/-- The predicted amount of a forecast result, for stating which
algorithm `get_forecast` dispatched to. -/
def predictedOf (r : Except FErr ForecastOutput) : Except FErr ℚ :=
  match r with
  | .error e => .error e
  | .ok o => .ok o.predicted_next_month_amount

/-! ### Part B: the `src/finance_copilot` package -/

/-- A `datetime.datetime` value, by components. -/
structure DateTime where
  year : ℕ
  month : ℕ
  day : ℕ
  hour : ℕ
  minute : ℕ
  second : ℕ
  microsecond : ℕ
deriving DecidableEq, Repr

/-- Gregorian leap-year rule. -/
def isLeapYear (y : ℕ) : Bool := y % 4 = 0 ∧ (y % 100 ≠ 0 ∨ y % 400 = 0)

/-- Month lengths of a (leap or common) year. -/
def monthLengths (leap : Bool) : List ℕ :=
  [31, if leap then 29 else 28, 31, 30, 31, 30, 31, 31, 30, 31, 30, 31]

/-- Days of year `y` before the first of month `m`. -/
def daysBeforeMonth (y m : ℕ) : ℕ := ((monthLengths (isLeapYear y)).take (m - 1)).sum

/-- Proleptic-Gregorian ordinal of a calendar day, as in
`datetime.date.toordinal` (day 1 = 0001-01-01). -/
def toOrdinal (y m d : ℕ) : ℕ :=
  365 * (y - 1) + (y - 1) / 4 - (y - 1) / 100 + (y - 1) / 400 + daysBeforeMonth y m + d

/-- The timestamp as a rational number of days; chronological comparisons
and day differences on `datetime` values are comparisons and differences
of this number. -/
def DateTime.toDays (t : DateTime) : ℚ :=
  (toOrdinal t.year t.month t.day : ℚ) +
    ((t.hour : ℚ) * 3600 + (t.minute : ℚ) * 60 + (t.second : ℚ) +
      (t.microsecond : ℚ) / 1000000) / 86400

/-- `TransactionType` enum of `transaction.py`. -/
inductive TransactionType where
  | debit
  | credit
deriving DecidableEq, Repr

/-- The enum's `.value` display string. -/
def TransactionType.value : TransactionType → String
  | .debit => "debit"
  | .credit => "credit"

/-- `TransactionType(s)`: enum lookup by value, `none` when Python would
raise `ValueError`. -/
def TransactionType.ofValue (s : String) : Option TransactionType :=
  if s = "debit" then some .debit
  else if s = "credit" then some .credit
  else none

/-- `TransactionCategory` enum of `transaction.py`. -/
inductive TransactionCategory where
  | foodDining
  | groceries
  | shopping
  | entertainment
  | transportation
  | billsUtilities
  | healthcare
  | personal
  | transfer
  | income
  | other
deriving DecidableEq, Repr

/-- The enum's `.value` display string. -/
def TransactionCategory.value : TransactionCategory → String
  | .foodDining => "Food & Dining"
  | .groceries => "Groceries"
  | .shopping => "Shopping"
  | .entertainment => "Entertainment"
  | .transportation => "Transportation"
  | .billsUtilities => "Bills & Utilities"
  | .healthcare => "Healthcare"
  | .personal => "Personal"
  | .transfer => "Transfer"
  | .income => "Income"
  | .other => "Other"

/-- `TransactionCategory(s)`: enum lookup by value. -/
def TransactionCategory.ofValue (s : String) : Option TransactionCategory :=
  if s = "Food & Dining" then some .foodDining
  else if s = "Groceries" then some .groceries
  else if s = "Shopping" then some .shopping
  else if s = "Entertainment" then some .entertainment
  else if s = "Transportation" then some .transportation
  else if s = "Bills & Utilities" then some .billsUtilities
  else if s = "Healthcare" then some .healthcare
  else if s = "Personal" then some .personal
  else if s = "Transfer" then some .transfer
  else if s = "Income" then some .income
  else if s = "Other" then some .other
  else none

/-- The `Transaction` dataclass. -/
structure Transaction where
  id : String
  date : DateTime
  description : String
  amount : ℚ
  type : TransactionType
  category : TransactionCategory
  merchant : Option String
  status : String
  notes : Option String
deriving DecidableEq, Repr

/-- Fixed-width zero-padded decimal rendering, most significant digit
first, as a list of character code points (`48 + digit`). -/
def digitsPad : ℕ → ℕ → List ℕ
  | 0, _ => []
  | w + 1, n => digitsPad w (n / 10) ++ [48 + n % 10]

/-- `datetime.isoformat()`: "YYYY-MM-DDTHH:MM:SS", with ".ffffff"
appended when the microsecond field is non-zero.  Python strings are
modelled as lists of character code points (45 '-', 84 'T', 58 ':',
46 '.'). -/
def isoformat (t : DateTime) : List ℕ :=
  digitsPad 4 t.year ++ 45 :: digitsPad 2 t.month ++ 45 :: digitsPad 2 t.day ++
  84 :: digitsPad 2 t.hour ++ 58 :: digitsPad 2 t.minute ++ 58 :: digitsPad 2 t.second ++
  (if t.microsecond = 0 then [] else 46 :: digitsPad 6 t.microsecond)

/-- Is the code point a decimal digit? -/
def isDigitCode (c : ℕ) : Bool := 48 ≤ c && c ≤ 57

/-- Numeric value of a two-digit code-point pair. -/
def twoDigits (a b : ℕ) : ℕ := (a - 48) * 10 + (b - 48)

/-- The optional fractional-seconds suffix of an ISO timestamp: empty
means microsecond 0, a '.' followed by exactly six digits carries the
microsecond value, anything else is malformed. -/
def fromisoFrac : List ℕ → Option ℕ
  | [] => some 0
  | 46 :: u1 :: u2 :: u3 :: u4 :: u5 :: u6 :: [] =>
    if isDigitCode u1 && isDigitCode u2 && isDigitCode u3 &&
       isDigitCode u4 && isDigitCode u5 && isDigitCode u6 then
      some (twoDigits u1 u2 * 10000 + twoDigits u3 u4 * 100 + twoDigits u5 u6)
    else none
  | _ => none

/-- `datetime.fromisoformat` on the layouts `isoformat` emits: fixed-width
fields with '-', 'T', ':' separators and an optional 6-digit fraction;
any other shape, non-digit field, or out-of-range component is a
`ValueError` (`none`). -/
def fromisoformat : List ℕ → Option DateTime
  | y1 :: y2 :: y3 :: y4 :: 45 :: m1 :: m2 :: 45 :: a1 :: a2 ::
      84 :: h1 :: h2 :: 58 :: i1 :: i2 :: 58 :: s1 :: s2 :: rest =>
    if isDigitCode y1 && isDigitCode y2 && isDigitCode y3 && isDigitCode y4 &&
       isDigitCode m1 && isDigitCode m2 && isDigitCode a1 && isDigitCode a2 &&
       isDigitCode h1 && isDigitCode h2 && isDigitCode i1 && isDigitCode i2 &&
       isDigitCode s1 && isDigitCode s2 then
      (fromisoFrac rest).bind fun us =>
        if 1 ≤ twoDigits y1 y2 * 100 + twoDigits y3 y4 ∧
           1 ≤ twoDigits m1 m2 ∧ twoDigits m1 m2 ≤ 12 ∧
           1 ≤ twoDigits a1 a2 ∧ twoDigits a1 a2 ≤ 31 ∧
           twoDigits h1 h2 ≤ 23 ∧ twoDigits i1 i2 ≤ 59 ∧ twoDigits s1 s2 ≤ 59 then
          some ⟨twoDigits y1 y2 * 100 + twoDigits y3 y4, twoDigits m1 m2, twoDigits a1 a2,
                twoDigits h1 h2, twoDigits i1 i2, twoDigits s1 s2, us⟩
        else none
    else none
  | _ => none

/-- The flat mapping produced by `Transaction.to_dict`.  The `status` key
is optional so that `from_dict`'s `data.get("status", "completed")`
default is expressible; `to_dict` always fills it. -/
structure TransactionDict where
  id : String
  date : List ℕ
  description : String
  amount : ℚ
  type : String
  category : String
  merchant : Option String
  status : Option String
  notes : Option String
deriving DecidableEq, Repr

/-- `Transaction.to_dict`. -/
def Transaction.to_dict (t : Transaction) : TransactionDict :=
  ⟨t.id, isoformat t.date, t.description, t.amount, t.type.value, t.category.value,
   t.merchant, some t.status, t.notes⟩

/-- `Transaction.from_dict`; `none` when `datetime.fromisoformat` or an
enum lookup raises. -/
def Transaction.from_dict (d : TransactionDict) : Option Transaction :=
  (fromisoformat d.date).bind fun dt =>
  (TransactionType.ofValue d.type).bind fun ty =>
  (TransactionCategory.ofValue d.category).map fun cat =>
  ⟨d.id, dt, d.description, d.amount, ty, cat, d.merchant, d.status.getD "completed", d.notes⟩

/-- Field ranges of a constructible `datetime.datetime` (Python enforces
them in the constructor; `day ≤ 31` abstracts the per-month bound, which
is all the round-trip proof needs). -/
def ValidDateTime (t : DateTime) : Prop :=
  1 ≤ t.year ∧ t.year ≤ 9999 ∧ 1 ≤ t.month ∧ t.month ≤ 12 ∧ 1 ≤ t.day ∧ t.day ≤ 31 ∧
  t.hour ≤ 23 ∧ t.minute ≤ 59 ∧ t.second ≤ 59 ∧ t.microsecond ≤ 999999

instance (t : DateTime) : Decidable (ValidDateTime t) := by
  unfold ValidDateTime; infer_instance

/-- `df['type'] == TransactionType.DEBIT.value` row predicate: the
serialized type string equals "debit", i.e. the enum is `debit`. -/
def isDebit (t : Transaction) : Bool := t.type = TransactionType.debit

/-- The timestamp of a transaction row after `pd.to_datetime`. -/
def dateDays (t : Transaction) : ℚ := t.date.toDays

/-- `TransactionAnalyzer._filter_by_days`: `days=None` keeps everything,
otherwise keep rows with `date >= now - timedelta(days=days)`.  `now` is
`datetime.now()` passed explicitly. -/
def filter_by_days (txs : List Transaction) (now : ℚ) (days : Option ℚ) : List Transaction :=
  if txs.isEmpty then txs
  else
    match days with
    | none => txs
    | some d => txs.filter fun t => now - d ≤ dateDays t

/-- `TransactionAnalyzer.get_total_spent`. -/
def get_total_spent (txs : List Transaction) (now : ℚ) (days : Option ℚ) : ℚ :=
  let df := filter_by_days txs now days
  if df.isEmpty then 0
  else ((df.filter isDebit).map (·.amount)).sum

/-- `TransactionAnalyzer.get_spending_by_category`: `groupby('category')`
sums DEBIT amounts per category value, keys sorted ascending as pandas
sorts group keys. -/
def get_spending_by_category (txs : List Transaction) (now : ℚ) (days : Option ℚ) :
    List (String × ℚ) :=
  let df := filter_by_days txs now days
  if df.isEmpty then []
  else
    let debits := df.filter isDebit
    if debits.isEmpty then []
    else
      ((debits.map fun t => t.category.value).toFinset.sort (· ≤ ·)).map fun c =>
        (c, ((debits.filter fun t => t.category.value = c).map (·.amount)).sum)

/-- The mapping returned by `SpendingForecaster.get_spending_velocity`. -/
structure VelocityOutput where
  velocity : ℚ
  trend : String
  recent_spending : ℚ
  previous_spending : ℚ
  window_days : ℕ
deriving DecidableEq, Repr

/-- DEBIT total of the trailing `[now - w, now)`-style recent window:
`debits[debits['date'] >= recent_start]['amount'].sum()`. -/
def recentWindowSpend (debits : List Transaction) (now : ℚ) (w : ℕ) : ℚ :=
  ((debits.filter fun t => now - (w : ℚ) ≤ dateDays t).map (·.amount)).sum

/-- DEBIT total of the preceding window:
`debits[(date >= previous_start) & (date < recent_start)]['amount'].sum()`. -/
def previousWindowSpend (debits : List Transaction) (now : ℚ) (w : ℕ) : ℚ :=
  ((debits.filter fun t =>
      now - (w : ℚ) * 2 ≤ dateDays t ∧ dateDays t < now - (w : ℚ)).map (·.amount)).sum

/-- `SpendingForecaster.get_spending_velocity(window_days)`; `now` is
`datetime.now()` passed explicitly. -/
def get_spending_velocity (txs : List Transaction) (now : ℚ) (window_days : ℕ) :
    VelocityOutput :=
  if txs.isEmpty then ⟨0, "stable", 0, 0, window_days⟩
  else
    let debits := txs.filter isDebit
    if debits.isEmpty then ⟨0, "stable", 0, 0, window_days⟩
    else
      let recent := recentWindowSpend debits now window_days
      let previous := previousWindowSpend debits now window_days
      if previous = 0 then ⟨0, "stable", recent, previous, window_days⟩
      else
        let velocity := (recent - previous) / previous * 100
        let trend :=
          if velocity > 10 then "increasing"
          else if velocity < -10 then "decreasing"
          else "stable"
        ⟨velocity, trend, recent, previous, window_days⟩

/-- `pandas.unique` order: distinct elements in order of first
appearance. -/
def uniqueFirst {α : Type} [DecidableEq α] : List α → List α
  | [] => []
  | a :: l => a :: uniqueFirst (l.filter fun b => b ≠ a)
termination_by l => l.length
decreasing_by simpa using Nat.lt_succ_of_le (List.length_filter_le _ _)

/-- `sorted(desc_transactions['date'].tolist())`. -/
def sortedDates (g : List Transaction) : List ℚ :=
  (g.map dateDays).mergeSort fun a b => a ≤ b

/-- `(dates[i+1] - dates[i]).days` for consecutive sorted dates:
`timedelta.days` is the floor of the difference in days. -/
def groupIntervals (g : List Transaction) : List ℤ :=
  let ds := sortedDates g
  List.zipWith (fun a b => ⌊b - a⌋) ds ds.tail

/-- Arithmetic mean of a list (`np.mean` / `Series.mean`). -/
def qMean (l : List ℚ) : ℚ := l.sum / (l.length : ℕ)

/-- `np.mean(intervals)`. -/
def groupAvgInterval (g : List Transaction) : ℚ :=
  qMean ((groupIntervals g).map fun i => (i : ℚ))

/-- Population variance of the intervals; `np.std(intervals)` is its
square root. -/
def groupVar (g : List Transaction) : ℚ :=
  let ivs := (groupIntervals g).map fun i => (i : ℚ)
  let μ := qMean ivs
  qMean (ivs.map fun x => (x - μ) ^ 2)

/-- `np.std(intervals) <= tolerance_days`: since `np.std` is the
non-negative square root of the population variance, the comparison holds
exactly when the tolerance is non-negative and the variance is at most
its square. -/
def npStdLe (v tol : ℚ) : Bool := 0 ≤ tol && v ≤ tol * tol

/-- One element of the list returned by `identify_recurring_expenses`.
`next_expected_date` is rendered with `strftime('%Y-%m-%d')`, which keeps
the calendar-day part of `dates[-1] + timedelta(days=avg_interval)`: its
day number is the floor of that sum. -/
structure RecurringEntry where
  description : String
  average_amount : ℚ
  interval_days : ℚ
  occurrences : ℕ
  category : String
  next_expected_day : ℤ
deriving DecidableEq, Repr

/-- The dictionary appended for one qualifying description group. -/
def entryFor (debits : List Transaction) (d : String) : RecurringEntry :=
  let group := debits.filter fun t => t.description = d
  ⟨d, qMean (group.map (·.amount)), groupAvgInterval group, group.length,
   ((group.head?.map fun t => t.category.value).getD ""),
   ⌊(sortedDates group).getLastD 0 + groupAvgInterval group⌋⟩

/-- `SpendingForecaster.identify_recurring_expenses(tolerance_days)`.
The source's separate `len(desc_transactions) < 2` and `len(dates) < 2`
guards test the same length; both are kept as the single first guard. -/
def identify_recurring_expenses (txs : List Transaction) (tol : ℚ) : List RecurringEntry :=
  if txs.isEmpty then []
  else
    let debits := txs.filter isDebit
    if debits.isEmpty then []
    else
      (uniqueFirst (debits.map (·.description))).filterMap fun d =>
        let group := debits.filter fun t => t.description = d
        if group.length < 2 then none
        else if 2 ≤ (groupIntervals group).length then
          if npStdLe (groupVar group) tol then some (entryFor debits d) else none
        else none

/-- Sum of squared residuals of the line `amount = a * month_idx + b`
over the rows of a monthly frame; `forecast_linear_regression`'s fit is
the ordinary-least-squares minimizer of this quantity. -/
def lsqError (monthly : List MonthlyRow) (a b : ℚ) : ℚ :=
  (monthly.map fun r => (r.amount - (a * (r.idx : ℚ) + b)) ^ 2).sum

/-! ### Concrete inputs used by witnesses and counterexamples -/

/-- A January-2024 row tagged as a debit. -/
def debitRow : RawRow := ⟨some ⟨2024, 1⟩, some 100, "debit"⟩

/-- The same date and amount as `debitRow` but tagged as a credit. -/
def typedCreditRow : RawRow := ⟨some ⟨2024, 1⟩, some 100, "credit"⟩

/-- A January-2024 credit row with a different amount. -/
def creditRow : RawRow := ⟨some ⟨2024, 1⟩, some 50, "credit"⟩

/-- A row whose date failed to parse. -/
def badRow : RawRow := ⟨none, some 5, "debit"⟩

/-- Two 2-bucket monthly frames used by the forecast-algorithm claims. -/
def twoBuckets : List MonthlyRow := [⟨24288, 100, 0⟩, ⟨24289, 200, 1⟩]

/-- A second 2-bucket frame (same totals), kept separate so distinct
claims do not share a concrete input. -/
def twoBucketsLin : List MonthlyRow := [⟨24288, 100, 0⟩, ⟨24289, 200, 1⟩]

/-- A transaction-record builder for the concrete insight examples. -/
def mkTx (i : String) (dt : DateTime) (desc : String) (amt : ℚ)
    (ty : TransactionType) (cat : TransactionCategory) : Transaction :=
  ⟨i, dt, desc, amt, ty, cat, some "M", "completed", none⟩

/-- Three "Rent Payment" debits of 1200, dated exactly 30 days apart
(2023-03-01, 2023-03-31, 2023-04-30). -/
def rentTxs : List Transaction :=
  [mkTx "T1" ⟨2023, 3, 1, 0, 0, 0, 0⟩ "Rent Payment" 1200 .debit .billsUtilities,
   mkTx "T2" ⟨2023, 3, 31, 0, 0, 0, 0⟩ "Rent Payment" 1200 .debit .billsUtilities,
   mkTx "T3" ⟨2023, 4, 30, 0, 0, 0, 0⟩ "Rent Payment" 1200 .debit .billsUtilities]

/-- The single recurring-expense entry the rent batch produces
(2023-04-30 has proleptic ordinal 738640; the projected next date is 30
days later). -/
def rentEntry : RecurringEntry :=
  ⟨"Rent Payment", 1200, 30, 3, "Bills & Utilities", 738670⟩

/-- Two "Gym" debits dated exactly 30 days apart. -/
def gymTxs : List Transaction :=
  [mkTx "G1" ⟨2023, 3, 1, 0, 0, 0, 0⟩ "Gym" 50 .debit .personal,
   mkTx "G2" ⟨2023, 3, 31, 0, 0, 0, 0⟩ "Gym" 50 .debit .personal]

/-- One debit dated 2024-01-10 (ordinal 738895), used with
`now = 738896`: it falls in the recent 7-day window and the previous
window is empty. -/
def velTx : Transaction :=
  mkTx "V1" ⟨2024, 1, 10, 0, 0, 0, 0⟩ "Groceries run" 500 .debit .groceries

/-- A transaction with every optional field exercised, for the
serialization round-trip witness. -/
def sampleTx : Transaction :=
  ⟨"TXN001", ⟨2024, 5, 17, 13, 45, 9, 123456⟩, "Coffee", 475/100, .debit, .foodDining,
   some "Blue Bottle", "pending", some "with Sam"⟩

/-! ## Helper lemmas -/

/-- `cleanRows` reads a record only through its `(date, amount)`
projection. -/
theorem cleanRows_eq_of_proj {l l' : List RawRow}
    (h : l.map (fun r => (r.date, r.amount)) = l'.map (fun r => (r.date, r.amount))) :
    cleanRows l = cleanRows l' := by
  have hl : ∀ m : List RawRow, cleanRows m =
      (m.map (fun r => (r.date, r.amount))).filterMap
        (fun p => p.1.bind fun d => p.2.map fun a => (rowPeriod d, a)) := by
    intro m
    rw [List.filterMap_map]
    rfl
  rw [hl, hl, h]

/-- `prepare_monthly_data` reads a record only through its
`(date, amount)` projection. -/
theorem prepare_monthly_data_eq_of_proj {l l' : List RawRow}
    (h : l.map (fun r => (r.date, r.amount)) = l'.map (fun r => (r.date, r.amount))) :
    prepare_monthly_data l = prepare_monthly_data l' := by
  have hlen : l.length = l'.length := by
    simpa using congrArg List.length h
  have hemp : l.isEmpty = l'.isEmpty := by
    cases l <;> cases l' <;> simp_all
  unfold prepare_monthly_data
  rw [hemp, cleanRows_eq_of_proj h]

/-- Telescoping sum of the consecutive differences of a list. -/
theorem zipWith_sub_tail_sum :
    ∀ l : List ℚ, (List.zipWith (· - ·) l.tail l).sum = l.getLastD 0 - l.headD 0
  | [] => by simp
  | [a] => by simp
  | a :: b :: t => by
    have ih := zipWith_sub_tail_sum (b :: t)
    simp only [List.tail_cons] at ih ⊢
    simp only [List.zipWith_cons_cons, List.sum_cons, ih, List.getLastD_cons,
      List.headD_cons]
    ring

/-! ## Claim C1 -/

/-- C1, counterexample: `get_forecast` does not depend only on the DEBIT
records — appending a CREDIT record for the same month changes both the
historical series and the forecast, contradicting the claimed debit-only
sign policy. -/
theorem getForecast_counts_credits :
    get_forecast [debitRow] "rolling" = .ok ⟨100, [(2024, 1)], [100]⟩ ∧
    get_forecast [debitRow, creditRow] "rolling" = .ok ⟨150, [(2024, 1)], [150]⟩ ∧
    (ForecastOutput.mk 100 [(2024, 1)] [100]) ≠ (ForecastOutput.mk 150 [(2024, 1)] [150]) := by
  refine ⟨?_, ?_, ?_⟩
  · norm_num [get_forecast, prepare_monthly_data, cleanRows, debitRow, rowPeriod, periodSum,
      List.filterMap_cons, forecast_rolling_trend, monthLabel, pyRound2, roundHalfEven]
  · norm_num [get_forecast, prepare_monthly_data, cleanRows, debitRow, creditRow, rowPeriod,
      periodSum, List.filterMap_cons, forecast_rolling_trend, monthLabel, pyRound2, roundHalfEven]
  · simp only [ne_eq, ForecastOutput.mk.injEq, not_and]
    intro h
    norm_num at h

/-- C1 (amended): `get_forecast` aggregates every record with a parseable
date and numeric amount regardless of its debit/credit tag — the result
depends only on the `(date, amount)` projection of the batch, so CREDIT
records contribute to the monthly totals exactly as DEBIT records do. -/
theorem getForecast_ignores_type (l l' : List RawRow) (method : String)
    (h : l.map (fun r => (r.date, r.amount)) = l'.map (fun r => (r.date, r.amount))) :
    get_forecast l method = get_forecast l' method := by
  unfold get_forecast
  rw [prepare_monthly_data_eq_of_proj h]

/-- Witness for C1's amended theorem: retagging the single debit row as a
credit leaves the forecast unchanged. -/
theorem getForecast_ignores_type_witness :
    get_forecast [debitRow] "rolling" = get_forecast [typedCreditRow] "rolling" :=
  getForecast_ignores_type [debitRow] [typedCreditRow] "rolling" rfl

/-! ## Claim C5 -/

/-- C5: a batch with zero usable records after permissive row-level
discarding never produces a numeric forecast: every method returns an
error, and the default "rolling" path raises the no-data error family
(the missing-column error on the empty batch, the empty-aggregate error
otherwise). -/
theorem getForecast_no_usable_records (records : List RawRow)
    (h : cleanRows records = []) :
    (∀ method : String, ∃ e, get_forecast records method = .error e) ∧
    get_forecast records "rolling" =
      .error (if records.isEmpty then FErr.missingDateColumn else FErr.noData) := by
  by_cases he : records.isEmpty
  · refine ⟨fun method => ⟨.missingDateColumn, ?_⟩, ?_⟩
    · simp [get_forecast, prepare_monthly_data, he]
    · simp [get_forecast, prepare_monthly_data, he]
  · have hmonthly : prepare_monthly_data records = .ok [] := by
      simp [prepare_monthly_data, he, h]
    refine ⟨fun method => ?_, ?_⟩
    · by_cases h1 : method = "rolling"
      · exact ⟨.noData, by simp [get_forecast, hmonthly, h1, forecast_rolling_trend]⟩
      · by_cases h2 : method = "linear"
        · exact ⟨.needTwoMonths, by simp [get_forecast, hmonthly, h1, h2,
            forecast_linear_regression]⟩
        · exact ⟨.invalidMethod, by simp [get_forecast, hmonthly, h1, h2]⟩
    · simp [get_forecast, hmonthly, forecast_rolling_trend, he]

/-- Witness for C5: one record whose date failed to parse is discarded,
and the rolling forecast reports the no-data error. -/
theorem getForecast_no_usable_records_witness :
    get_forecast [badRow] "rolling" = .error FErr.noData := by
  have h := (getForecast_no_usable_records [badRow] (by rfl)).2
  simpa [badRow] using h

/-! ## Claim C9 -/

/-- C9, counterexample: on the empty batch the aggregation error
preempts the method check, so an unknown method string surfaces the
missing-column error rather than the invalid-method error the claim
demands for every batch. -/
theorem getForecast_unknown_method_preempted :
    get_forecast [] "median" = .error .missingDateColumn ∧
    FErr.missingDateColumn ≠ FErr.invalidMethod := by
  exact ⟨rfl, by decide⟩

/-- C9 (amended): once aggregation succeeds, an unknown method string is
rejected with the invalid-method error (no silent fallback), and
"rolling"/"linear" dispatch the prediction to the corresponding
algorithm on the aggregated frame. -/
theorem getForecast_method_dispatch (records : List RawRow) (method : String)
    (monthly : List MonthlyRow) (hok : prepare_monthly_data records = .ok monthly) :
    (method ≠ "rolling" → method ≠ "linear" →
      get_forecast records method = .error .invalidMethod) ∧
    predictedOf (get_forecast records "rolling") = forecast_rolling_trend monthly ∧
    predictedOf (get_forecast records "linear") = forecast_linear_regression monthly := by
  refine ⟨fun h1 h2 => ?_, ?_, ?_⟩
  · simp [get_forecast, hok, h1, h2]
  · unfold get_forecast predictedOf
    rw [hok]
    cases hfv : forecast_rolling_trend monthly <;> simp [hfv]
  · unfold get_forecast predictedOf
    rw [hok]
    cases hfv : forecast_linear_regression monthly <;> simp [hfv]

/-- Witness for C9's amended theorem on a batch with one usable record
and the unknown method "median". -/
theorem getForecast_method_dispatch_witness :
    get_forecast [debitRow] "median" = .error .invalidMethod := by
  refine (getForecast_method_dispatch [debitRow] "median" [⟨24288, 100, 0⟩] ?_).1
    (by decide) (by decide)
  norm_num [prepare_monthly_data, cleanRows, debitRow, rowPeriod, periodSum,
    List.filterMap_cons]

/-! ## Claim C3 -/

/-- C3, counterexample: on totals `[100, 200]` the code forecasts
`round2(150 + 100/2) = 200`, while the claimed formula — trailing mean of
the last `min(window, n)` totals plus the mean of the `n - 1` first
differences — gives `round2(150 + 100/1) = 250`. -/
theorem rollingTrend_divides_by_n_counterexample :
    forecast_rolling_trend twoBuckets 3 = .ok 200 ∧
    pyRound2 (((100 : ℚ) + 200) / 2 + (200 - 100) / 1) = 250 ∧
    (Except.ok (200 : ℚ) : Except FErr ℚ) ≠ .ok 250 := by
  refine ⟨?_, ?_, ?_⟩
  · norm_num [forecast_rolling_trend, twoBuckets, pyRound2, roundHalfEven]
  · norm_num [pyRound2, roundHalfEven]
  · simp only [ne_eq, Except.ok.injEq]
    norm_num

/-- C3 (amended): for a non-empty frame the rolling-trend forecast is the
trailing mean of the last `min(window, n)` totals plus the sum of the
first differences divided by `n` (equivalently `(last - first) / n`,
which is `0` for a single bucket), rounded to 2 decimals; with exactly
one bucket it returns that bucket's total rounded to 2 decimals and
never fails. -/
theorem rollingTrend_formula (monthly : List MonthlyRow) (window : ℕ)
    (hne : monthly ≠ []) (hw : 1 ≤ window) :
    forecast_rolling_trend monthly window =
      .ok (pyRound2 ((((monthly.map (·.amount)).reverse.take window).sum /
          ((min window monthly.length : ℕ) : ℚ)) +
        ((monthly.map (·.amount)).getLastD 0 - (monthly.map (·.amount)).headD 0) /
          (monthly.length : ℚ))) ∧
    ∀ r : MonthlyRow, forecast_rolling_trend [r] window = .ok (pyRound2 r.amount) := by
  constructor
  · have hemp : monthly.isEmpty = false := by
      simp [List.isEmpty_iff, hne]
    unfold forecast_rolling_trend
    rw [hemp]
    simp only [Bool.false_eq_true, if_false, Except.ok.injEq]
    congr 1
    have hlen : (monthly.map (·.amount)).length = monthly.length := List.length_map _ _
    rw [List.sum_cons, zipWith_sub_tail_sum, hlen]
    ring
  · intro r
    unfold forecast_rolling_trend
    simp only [List.isEmpty_cons, Bool.false_eq_true, if_false, List.map_cons,
      List.map_nil, Except.ok.injEq]
    have htake : ([r.amount] : List ℚ).reverse.take window = [r.amount] := by
      cases window with
      | zero => omega
      | succ w => simp
    have hmin : min window 1 = 1 := Nat.min_eq_right hw
    rw [htake]
    simp only [List.length_cons, List.length_nil, Nat.zero_add, hmin]
    norm_num

/-- Witness for C3's amended theorem: a single bucket of 100 forecasts
exactly 100. -/
theorem rollingTrend_formula_witness :
    forecast_rolling_trend [⟨24288, (100 : ℚ), 0⟩] 3 = .ok 100 := by
  have h := (rollingTrend_formula [⟨24288, (100 : ℚ), 0⟩] 3 (by simp) (by norm_num)).2
    ⟨24288, (100 : ℚ), 0⟩
  rw [h]
  norm_num [pyRound2, roundHalfEven]

/-! ## Claim C2 -/

/-- C2: on any batch the aggregator's buckets are strictly ascending in
calendar year-month, their zero-based indices are `0..n-1` in that
chronological rank, and the whole output is invariant under permutation
of the input records. -/
theorem monthlyBuckets_sorted_indexed_perm_invariant
    (records records' : List RawRow) (monthly : List MonthlyRow)
    (hperm : records.Perm records') :
    (prepare_monthly_data records = .ok monthly →
      List.Pairwise (fun a b : ℕ × ℕ => a.1 < b.1 ∨ (a.1 = b.1 ∧ a.2 < b.2))
        (monthly.map fun r => monthLabel r.month) ∧
      monthly.map (·.idx) = List.range monthly.length) ∧
    prepare_monthly_data records = prepare_monthly_data records' := by
  constructor
  · intro hok
    unfold prepare_monthly_data at hok
    by_cases he : records.isEmpty = true
    · rw [if_pos he] at hok
      exact absurd hok (by simp)
    · rw [if_neg he, Except.ok.injEq] at hok
      subst hok
      constructor
      · rw [List.map_map]
        have hcomp : ((fun r : MonthlyRow => monthLabel r.month) ∘
            fun ip : ℕ × ℕ =>
              (⟨ip.2, periodSum (cleanRows records) ip.2, ip.1⟩ : MonthlyRow)) =
            monthLabel ∘ Prod.snd := rfl
        rw [hcomp, ← List.map_map, List.enum_map_snd]
        refine List.Pairwise.map monthLabel ?_ (Finset.sort_sorted_lt _)
        intro p q hpq
        unfold monthLabel
        omega
      · rw [List.map_map, List.length_map, List.enum_length]
        have hcomp : ((fun r : MonthlyRow => r.idx) ∘
            fun ip : ℕ × ℕ =>
              (⟨ip.2, periodSum (cleanRows records) ip.2, ip.1⟩ : MonthlyRow)) =
            Prod.fst := rfl
        rw [hcomp, List.enum_map_fst]
  · have hclean : (cleanRows records).Perm (cleanRows records') := hperm.filterMap _
    have hfst : ((cleanRows records).map Prod.fst).Perm
        ((cleanRows records').map Prod.fst) := hclean.map _
    have hfin : ((cleanRows records).map Prod.fst).toFinset =
        ((cleanRows records').map Prod.fst).toFinset :=
      List.toFinset_eq_of_perm _ _ hfst
    have hemp : records.isEmpty = records'.isEmpty := by
      have := hperm.length_eq
      cases records <;> cases records' <;> simp_all
    have hps : ∀ p, periodSum (cleanRows records) p = periodSum (cleanRows records') p := by
      intro p
      unfold periodSum
      exact ((hclean.filter _).map _).sum_eq
    simp only [prepare_monthly_data]
    rw [hemp, hfin]
    simp only [hps]

/-- Witness for C2 on a two-record January-2024 batch and its shuffle:
one bucket, index list `[0] = range 1`, identical outputs. -/
theorem monthlyBuckets_sorted_indexed_perm_invariant_witness :
    prepare_monthly_data [debitRow, creditRow] = prepare_monthly_data [creditRow, debitRow] ∧
    ([⟨24288, (150 : ℚ), 0⟩] : List MonthlyRow).map (·.idx) = List.range 1 := by
  have h := monthlyBuckets_sorted_indexed_perm_invariant [debitRow, creditRow]
    [creditRow, debitRow] [⟨24288, 150, 0⟩] (List.Perm.swap creditRow debitRow [])
  refine ⟨h.2, (h.1 ?_).2⟩
  norm_num [prepare_monthly_data, cleanRows, debitRow, creditRow, rowPeriod, periodSum,
    List.filterMap_cons]

/-! ## Claim C4 -/

/-- A list sum as a sum over positions. -/
theorem list_sum_getD (l : List ℚ) :
    l.sum = ∑ i ∈ Finset.range l.length, l.getD i 0 := by
  induction l with
  | nil => simp
  | cons a t ih =>
    rw [List.sum_cons, ih, List.length_cons, Finset.sum_range_succ']
    simp only [List.getD_cons_succ, List.getD_cons_zero]
    ring

/-- Summing a position-indexed combination of a list's entries. -/
theorem zipWith_range_sum :
    ∀ (l : List ℚ) (g : ℕ → ℚ → ℚ),
      (List.zipWith g (List.range l.length) l).sum
        = ∑ i ∈ Finset.range l.length, g i (l.getD i 0)
  | [], g => by simp
  | a :: t, g => by
    have ih := zipWith_range_sum t fun i y => g (i + 1) y
    rw [List.length_cons, List.range_succ_eq_map, List.zipWith_cons_cons, List.sum_cons,
      List.zipWith_map_left, Finset.sum_range_succ']
    simp only [Nat.succ_eq_add_one, List.getD_cons_succ, List.getD_cons_zero]
    rw [ih]
    ring

/-- A map over monthly rows splits into a zipWith of the two column
projections. -/
theorem map_row_zipWith (f : ℕ → ℚ → ℚ) :
    ∀ monthly : List MonthlyRow,
      monthly.map (fun r => f r.idx r.amount)
        = List.zipWith f (monthly.map (·.idx)) (monthly.map (·.amount))
  | [] => by simp
  | r :: t => by
    rw [List.map_cons, List.map_cons, List.map_cons, List.zipWith_cons_cons,
      map_row_zipWith f t]

/-- Row statistics of an aggregator-indexed frame as sums over
`Finset.range`. -/
theorem row_stat_sum (monthly : List MonthlyRow) (f : ℕ → ℚ → ℚ)
    (hidx : monthly.map (·.idx) = List.range monthly.length) :
    (monthly.map fun r => f r.idx r.amount).sum
      = ∑ i ∈ Finset.range monthly.length, f i ((monthly.map (·.amount)).getD i 0) := by
  rw [map_row_zipWith f monthly, hidx]
  have hamlen : (monthly.map (·.amount)).length = monthly.length := List.length_map _ _
  rw [← hamlen, zipWith_range_sum, hamlen]

/-- Gauss sum over `ℚ`. -/
theorem sum_range_cast_q (n : ℕ) :
    ∑ i ∈ Finset.range n, (i : ℚ) = n * ((n : ℚ) - 1) / 2 := by
  induction n with
  | zero => simp
  | succ m ih =>
    rw [Finset.sum_range_succ, ih]
    push_cast
    ring

/-- Sum of squares over `ℚ`. -/
theorem sum_range_mul_self_q (n : ℕ) :
    ∑ i ∈ Finset.range n, (i : ℚ) * (i : ℚ)
      = n * ((n : ℚ) - 1) * (2 * n - 1) / 6 := by
  induction n with
  | zero => simp
  | succ m ih =>
    rw [Finset.sum_range_succ, ih]
    push_cast
    ring

/-- C4: `forecast_linear_regression` raises the insufficient-data error
on fewer than 2 buckets; on an aggregator-indexed frame with at least 2
buckets it returns the ordinary-least-squares line over the
`(index, total)` pairs evaluated at `last_index + 1`, rounded to 2
decimals with no floor at zero; and on totals `[100, 200]` it returns
exactly `300`. -/
theorem linearRegression_least_squares (monthly : List MonthlyRow) :
    (monthly.length < 2 → forecast_linear_regression monthly = .error .needTwoMonths) ∧
    (2 ≤ monthly.length → monthly.map (·.idx) = List.range monthly.length →
      ∃ a b : ℚ, (∀ a' b' : ℚ, lsqError monthly a b ≤ lsqError monthly a' b') ∧
        forecast_linear_regression monthly =
          .ok (pyRound2 (a * (monthly.length : ℚ) + b))) ∧
    forecast_linear_regression twoBucketsLin = .ok 300 := by
  refine ⟨fun hlt => ?_, fun h2 hidx => ?_, ?_⟩
  · unfold forecast_linear_regression
    rw [if_pos hlt]
  · set n := monthly.length with hn
    have hne2 : ¬ (n < 2) := by omega
    set Y : ℕ → ℚ := fun i => (monthly.map (·.amount)).getD i 0 with hYdef
    have hxs : (monthly.map fun r => (r.idx : ℚ)).sum = ∑ i ∈ Finset.range n, (i : ℚ) :=
      row_stat_sum monthly (fun i _ => (i : ℚ)) hidx
    have hys : (monthly.map (·.amount)).sum = ∑ i ∈ Finset.range n, Y i :=
      row_stat_sum monthly (fun _ y => y) hidx
    have hxx : ((monthly.map fun r => (r.idx : ℚ)).map fun x => x * x).sum
        = ∑ i ∈ Finset.range n, (i : ℚ) * (i : ℚ) := by
      rw [List.map_map]
      exact row_stat_sum monthly (fun i _ => (i : ℚ) * (i : ℚ)) hidx
    have hxy : (List.zipWith (· * ·) (monthly.map fun r => (r.idx : ℚ))
          (monthly.map (·.amount))).sum
        = ∑ i ∈ Finset.range n, (i : ℚ) * Y i := by
      rw [List.zipWith_map, List.zipWith_same]
      exact row_stat_sum monthly (fun i y => (i : ℚ) * y) hidx
    have hlsq : ∀ a b : ℚ, lsqError monthly a b
        = ∑ i ∈ Finset.range n, (Y i - (a * (i : ℚ) + b)) ^ 2 := fun a b =>
      row_stat_sum monthly (fun i y => (y - (a * (i : ℚ) + b)) ^ 2) hidx
    have hlast : (monthly.map (·.idx)).getLastD 0 = n - 1 := by
      rw [hidx]
      obtain ⟨m, hm⟩ : ∃ m, n = m + 1 := ⟨n - 1, by omega⟩
      rw [hm, List.range_succ, List.getLastD_concat]
      omega
    have hcast : (((n - 1 : ℕ)) : ℚ) + 1 = (n : ℚ) := by
      have h1 : 1 ≤ n := by omega
      rw [Nat.cast_sub h1]
      push_cast
      ring
    simp only [forecast_linear_regression, if_neg hne2]
    rw [hxs, hys, hxx, hxy, hlast, hcast]
    set sx := ∑ i ∈ Finset.range n, (i : ℚ) with hsx
    set sy := ∑ i ∈ Finset.range n, Y i with hsy
    set sxx := ∑ i ∈ Finset.range n, (i : ℚ) * (i : ℚ) with hsxx
    set sxy := ∑ i ∈ Finset.range n, (i : ℚ) * Y i with hsxy
    have hnq : (2 : ℚ) ≤ (n : ℚ) := by exact_mod_cast h2
    have hn0 : (n : ℚ) ≠ 0 := by
      intro h
      rw [h] at hnq
      norm_num at hnq
    have hD : (n : ℚ) * sxx - sx * sx
        = (n : ℚ) ^ 2 * ((n : ℚ) - 1) * ((n : ℚ) + 1) / 12 := by
      rw [hsx, hsxx, sum_range_cast_q, sum_range_mul_self_q]
      ring
    have hDpos : 0 < (n : ℚ) * sxx - sx * sx := by
      rw [hD]
      have h1 : (0 : ℚ) < (n : ℚ) - 1 := by linarith
      have h2' : (0 : ℚ) < (n : ℚ) + 1 := by linarith
      have h3 : (0 : ℚ) < (n : ℚ) ^ 2 := by nlinarith
      have := mul_pos (mul_pos h3 h1) h2'
      linarith
    have hDne : (n : ℚ) * sxx - sx * sx ≠ 0 := ne_of_gt hDpos
    set A := ((n : ℚ) * sxy - sx * sy) / ((n : ℚ) * sxx - sx * sx) with hA
    set B := (sy - A * sx) / (n : ℚ) with hB
    have hE1 : ∑ i ∈ Finset.range n, (Y i - (A * (i : ℚ) + B)) = 0 := by
      have expand : ∑ i ∈ Finset.range n, (Y i - (A * (i : ℚ) + B))
          = sy - (A * sx + (n : ℚ) * B) := by
        rw [Finset.sum_sub_distrib, Finset.sum_add_distrib, ← Finset.mul_sum,
          Finset.sum_const, Finset.card_range, nsmul_eq_mul]
      rw [expand, hB]
      field_simp
    have hE2 : ∑ i ∈ Finset.range n, (i : ℚ) * (Y i - (A * (i : ℚ) + B)) = 0 := by
      have key : ∀ i ∈ Finset.range n, (i : ℚ) * (Y i - (A * (i : ℚ) + B))
          = (i : ℚ) * Y i - (A * ((i : ℚ) * (i : ℚ)) + B * (i : ℚ)) := by
        intro i _
        ring
      have expand : ∑ i ∈ Finset.range n, (i : ℚ) * (Y i - (A * (i : ℚ) + B))
          = sxy - (A * sxx + B * sx) := by
        rw [Finset.sum_congr rfl key, Finset.sum_sub_distrib, Finset.sum_add_distrib,
          ← Finset.mul_sum, ← Finset.mul_sum]
      rw [expand, hB, hA]
      field_simp
      ring
    refine ⟨A, B, fun a' b' => ?_, rfl⟩
    rw [hlsq, hlsq]
    have key : ∀ i ∈ Finset.range n,
        (Y i - (a' * (i : ℚ) + b')) ^ 2
          = (Y i - (A * (i : ℚ) + B)) ^ 2
            + (2 * (A - a') * ((i : ℚ) * (Y i - (A * (i : ℚ) + B)))
               + 2 * (B - b') * (Y i - (A * (i : ℚ) + B)))
            + ((A - a') * (i : ℚ) + (B - b')) ^ 2 := by
      intro i _
      ring
    rw [Finset.sum_congr rfl key, Finset.sum_add_distrib, Finset.sum_add_distrib,
      Finset.sum_add_distrib, ← Finset.mul_sum, ← Finset.mul_sum, hE1, hE2]
    have hsq : 0 ≤ ∑ i ∈ Finset.range n, ((A - a') * (i : ℚ) + (B - b')) ^ 2 :=
      Finset.sum_nonneg fun i _ => sq_nonneg _
    simp only [mul_zero, add_zero]
    linarith
  · norm_num [forecast_linear_regression, twoBucketsLin, pyRound2, roundHalfEven]

/-- Witness for C4's least-squares branch on the two-bucket frame
`[100, 200]`: the fitted line minimizes the squared error and the
forecast evaluates it at index 2. -/
theorem linearRegression_least_squares_witness :
    ∃ a b : ℚ, (∀ a' b' : ℚ, lsqError twoBucketsLin a b ≤ lsqError twoBucketsLin a' b') ∧
      forecast_linear_regression twoBucketsLin =
        .ok (pyRound2 (a * (twoBucketsLin.length : ℚ) + b)) :=
  (linearRegression_least_squares twoBucketsLin).2.1 (by decide) (by decide)

/-! ## Claim C7 -/

/-- Summing a sorted Finset's image equals the Finset sum. -/
theorem sum_map_sort (s : Finset String) (f : String → ℚ) :
    ((s.sort (· ≤ ·)).map f).sum = ∑ x ∈ s, f x := by
  have h1 : ((((s.sort (· ≤ ·)).map f) : List ℚ) : Multiset ℚ).sum
      = ((s.sort (· ≤ ·)).map f).sum := Multiset.sum_coe _
  rw [← h1, ← Multiset.map_coe, Finset.sort_eq]
  rfl

/-- Fiberwise partition of a transaction list's amount total by category
value. -/
theorem sum_by_category_fiberwise (l : List Transaction) (S : Finset String)
    (h : ∀ t ∈ l, t.category.value ∈ S) :
    ∑ c ∈ S, ((l.filter fun t => t.category.value = c).map (·.amount)).sum
      = (l.map (·.amount)).sum := by
  induction l with
  | nil => simp
  | cons a t ih =>
    have ha : a.category.value ∈ S := h a (by simp)
    have ht : ∀ x ∈ t, x.category.value ∈ S := fun x hx => h x (by simp [hx])
    have step : ∀ c ∈ S,
        (((a :: t).filter fun x => x.category.value = c).map (·.amount)).sum
          = (if a.category.value = c then a.amount else 0)
            + ((t.filter fun x => x.category.value = c).map (·.amount)).sum := by
      intro c _
      by_cases hc : a.category.value = c
      · simp [List.filter_cons, hc]
      · simp [List.filter_cons, hc]
    rw [Finset.sum_congr rfl step, Finset.sum_add_distrib, ih ht, Finset.sum_ite_eq,
      if_pos ha, List.map_cons, List.sum_cons]

/-- C7: with no day filter, the values of `spending_by_category` sum to
exactly `total_spent` — every DEBIT record lands in exactly one category
bucket and CREDIT records in none — so the two agree within any floating
tolerance such as 1e-6. -/
theorem spendingByCategory_sums_to_totalSpent (txs : List Transaction) (now : ℚ) :
    ((get_spending_by_category txs now none).map Prod.snd).sum
      = get_total_spent txs now none := by
  have hfd : filter_by_days txs now none = txs := by
    unfold filter_by_days
    split <;> rfl
  unfold get_spending_by_category get_total_spent
  rw [hfd]
  by_cases he : txs.isEmpty = true
  · simp [he]
  · simp only [he, Bool.false_eq_true, if_false]
    by_cases hd : (txs.filter isDebit).isEmpty = true
    · rw [if_pos hd]
      simp [List.isEmpty_iff.mp hd]
    · rw [if_neg hd, List.map_map]
      have hsort : ((((txs.filter isDebit).map fun t => t.category.value).toFinset.sort
            (· ≤ ·)).map
          (Prod.snd ∘ fun c =>
            (c, (((txs.filter isDebit).filter fun t => t.category.value = c).map
              (·.amount)).sum))).sum
          = ∑ c ∈ ((txs.filter isDebit).map fun t => t.category.value).toFinset,
              (((txs.filter isDebit).filter fun t => t.category.value = c).map
                (·.amount)).sum :=
        sum_map_sort _ _
      rw [hsort, sum_by_category_fiberwise]
      intro x hx
      exact List.mem_toFinset.mpr (List.mem_map_of_mem _ hx)

/-! ## Claim C8 -/

/-- C8: whenever the preceding spending window sums to zero DEBIT
activity, the reported velocity is exactly 0 with trend "stable",
whatever was spent in the recent window; the computation is a total
function, so no exception and no infinity can arise. -/
theorem spendingVelocity_zero_prior_window (txs : List Transaction) (now : ℚ) (w : ℕ)
    (h : previousWindowSpend (txs.filter isDebit) now w = 0) :
    (get_spending_velocity txs now w).velocity = 0 ∧
    (get_spending_velocity txs now w).trend = "stable" := by
  unfold get_spending_velocity
  by_cases he : txs.isEmpty = true
  · simp [he]
  · simp only [he, Bool.false_eq_true, if_false]
    by_cases hd : (txs.filter isDebit).isEmpty = true
    · simp [hd]
    · simp [hd, h]

/-- Witness for C8: one debit inside the recent 7-day window and an
empty preceding window reports velocity 0, trend "stable". -/
theorem spendingVelocity_zero_prior_window_witness :
    (get_spending_velocity [velTx] 738896 7).velocity = 0 ∧
    (get_spending_velocity [velTx] 738896 7).trend = "stable" := by
  apply spendingVelocity_zero_prior_window
  norm_num [previousWindowSpend, velTx, mkTx, isDebit, dateDays, DateTime.toDays,
    toOrdinal, daysBeforeMonth, monthLengths, isLeapYear, List.filter_cons]

/-! ## Claim C10 -/

/-- Four-digit rendering unfolded. -/
theorem digitsPad_four (n : ℕ) :
    digitsPad 4 n = [48 + n / 10 / 10 / 10 % 10, 48 + n / 10 / 10 % 10,
      48 + n / 10 % 10, 48 + n % 10] := rfl

/-- Two-digit rendering unfolded. -/
theorem digitsPad_two (n : ℕ) : digitsPad 2 n = [48 + n / 10 % 10, 48 + n % 10] := rfl

/-- Six-digit rendering unfolded. -/
theorem digitsPad_six (n : ℕ) :
    digitsPad 6 n = [48 + n / 10 / 10 / 10 / 10 / 10 % 10, 48 + n / 10 / 10 / 10 / 10 % 10,
      48 + n / 10 / 10 / 10 % 10, 48 + n / 10 / 10 % 10, 48 + n / 10 % 10, 48 + n % 10] := rfl

/-- A rendered digit's code point is a digit. -/
theorem isDigitCode_digit (x : ℕ) : isDigitCode (48 + x % 10) = true := by
  have hx : x % 10 < 10 := Nat.mod_lt _ (by norm_num)
  unfold isDigitCode
  simp only [Bool.and_eq_true, decide_eq_true_eq]
  omega

/-- `datetime.fromisoformat` inverts `datetime.isoformat` on every
constructible datetime. -/
theorem fromisoformat_isoformat (t : DateTime) (h : ValidDateTime t) :
    fromisoformat (isoformat t) = some t := by
  obtain ⟨y, mo, dy, hr, mi, s, us⟩ := t
  obtain ⟨hy1, hy2, hm1, hm2, hd1, hd2, hh, hmi, hs, hus⟩ := h
  simp only at hy1 hy2 hm1 hm2 hd1 hd2 hh hmi hs hus
  by_cases h0 : us = 0
  · subst h0
    simp only [isoformat, digitsPad_four, digitsPad_two, eq_self_iff_true, if_true,
      List.cons_append, List.nil_append, List.append_nil]
    rw [fromisoformat, if_pos (by simp [isDigitCode_digit])]
    rw [show fromisoFrac [] = some 0 from rfl, Option.some_bind]
    rw [if_pos (by simp only [twoDigits]; omega)]
    simp only [Option.some.injEq, DateTime.mk.injEq, twoDigits, and_true]
    omega
  · simp only [isoformat, digitsPad_four, digitsPad_two, digitsPad_six, if_neg h0,
      List.cons_append, List.nil_append, List.append_nil]
    rw [fromisoformat, if_pos (by simp [isDigitCode_digit])]
    have hfrac : fromisoFrac
        [46, 48 + us / 10 / 10 / 10 / 10 / 10 % 10, 48 + us / 10 / 10 / 10 / 10 % 10,
         48 + us / 10 / 10 / 10 % 10, 48 + us / 10 / 10 % 10, 48 + us / 10 % 10,
         48 + us % 10] = some us := by
      rw [fromisoFrac, if_pos (by simp [isDigitCode_digit])]
      simp only [twoDigits, Option.some.injEq]
      omega
    rw [hfrac, Option.some_bind]
    rw [if_pos (by simp only [twoDigits]; omega)]
    simp only [Option.some.injEq, DateTime.mk.injEq, twoDigits, and_true]
    omega

/-- Enum round trip for `TransactionType`. -/
theorem transactionType_ofValue_value (ty : TransactionType) :
    TransactionType.ofValue ty.value = some ty := by
  cases ty <;> rfl

/-- Enum round trip for `TransactionCategory`. -/
theorem transactionCategory_ofValue_value (c : TransactionCategory) :
    TransactionCategory.ofValue c.value = some c := by
  cases c <;> rfl

/-- C10: `from_dict` exactly reconstructs any serialized transaction,
optional fields, status and all. -/
theorem transaction_roundtrip (t : Transaction) (h : ValidDateTime t.date) :
    Transaction.from_dict (Transaction.to_dict t) = some t := by
  unfold Transaction.to_dict Transaction.from_dict
  simp only [fromisoformat_isoformat t.date h, Option.some_bind,
    transactionType_ofValue_value, transactionCategory_ofValue_value, Option.map_some',
    Option.getD_some, Option.some.injEq]

/-- Witness for C10 on a transaction exercising every optional field. -/
theorem transaction_roundtrip_witness :
    Transaction.from_dict (Transaction.to_dict sampleTx) = some sampleTx :=
  transaction_roundtrip sampleTx (by decide)

/-! ## Claim C6 -/

/-- `uniqueFirst` keeps exactly the members of the list. -/
theorem mem_uniqueFirst {α : Type} [DecidableEq α] (a : α) :
    ∀ l : List α, a ∈ uniqueFirst l ↔ a ∈ l
  | [] => by rw [uniqueFirst]
  | x :: l => by
    rw [uniqueFirst]
    have ih := mem_uniqueFirst a (l.filter fun b => b ≠ x)
    by_cases hax : a = x
    · subst hax
      simp
    · constructor
      · intro h
        rcases List.mem_cons.mp h with h | h
        · exact List.mem_cons.mpr (Or.inl h)
        · exact List.mem_cons.mpr (Or.inr (List.mem_filter.mp (ih.mp h)).1)
      · intro h
        rcases List.mem_cons.mp h with h | h
        · exact List.mem_cons.mpr (Or.inl h)
        · refine List.mem_cons.mpr (Or.inr (ih.mpr ?_))
          exact List.mem_filter.mpr ⟨h, by simp [hax]⟩
termination_by l => l.length
decreasing_by simpa using Nat.lt_succ_of_le (List.length_filter_le _ _)

/-- A group of `k` occurrences has `k - 1` inter-occurrence intervals. -/
theorem groupIntervals_length (g : List Transaction) :
    (groupIntervals g).length = g.length - 1 := by
  unfold groupIntervals sortedDates
  rw [List.length_zipWith, List.length_tail, List.length_mergeSort, List.length_map]
  omega

/-- The coded standard-deviation test as a proposition. -/
theorem npStdLe_iff (v tol : ℚ) : npStdLe v tol = true ↔ (0 ≤ tol ∧ v ≤ tol * tol) := by
  unfold npStdLe
  simp [Bool.and_eq_true, decide_eq_true_eq]

/-- C6 (amended): `identify_recurring_expenses` reports exactly the
exact-description DEBIT groups with at least 3 occurrences (at least 2
inter-occurrence intervals — 2-occurrence groups are skipped) whose
interval population standard deviation is at most the tolerance, each
with its mean amount, mean interval, occurrence count and projected next
day; the three 30-day-apart rent debits of 1200 yield exactly one entry
with average 1200, interval 30 and 3 occurrences. -/
theorem identifyRecurring_characterization (txs : List Transaction) (tol : ℚ) :
    (∀ e : RecurringEntry, e ∈ identify_recurring_expenses txs tol ↔
      ∃ d : String,
        3 ≤ ((txs.filter isDebit).filter fun t => t.description = d).length ∧
        (0 ≤ tol ∧
          groupVar ((txs.filter isDebit).filter fun t => t.description = d) ≤ tol * tol) ∧
        e = entryFor (txs.filter isDebit) d) ∧
    identify_recurring_expenses rentTxs 3 = [rentEntry] := by
  constructor
  · intro e
    unfold identify_recurring_expenses
    by_cases he : txs.isEmpty = true
    · have hnil : txs = [] := List.isEmpty_iff.mp he
      subst hnil
      simp
    · simp only [he, Bool.false_eq_true, if_false]
      by_cases hd : (txs.filter isDebit).isEmpty = true
      · rw [if_pos hd]
        have hnil : txs.filter isDebit = [] := List.isEmpty_iff.mp hd
        rw [hnil]
        simp
      · rw [if_neg hd, List.mem_filterMap]
        constructor
        · rintro ⟨d, hdmem, hbody⟩
          by_cases h2 : ((txs.filter isDebit).filter fun t => t.description = d).length < 2
          · rw [if_pos h2] at hbody
            exact absurd hbody (by simp)
          · rw [if_neg h2] at hbody
            by_cases h3 : 2 ≤ (groupIntervals
                ((txs.filter isDebit).filter fun t => t.description = d)).length
            · rw [if_pos h3] at hbody
              by_cases h4 : npStdLe
                  (groupVar ((txs.filter isDebit).filter fun t => t.description = d))
                  tol = true
              · rw [if_pos h4] at hbody
                have hlen := groupIntervals_length
                  ((txs.filter isDebit).filter fun t => t.description = d)
                refine ⟨d, by omega, (npStdLe_iff _ _).mp h4, ?_⟩
                exact (Option.some.injEq _ _).mp hbody |>.symm
              · rw [if_neg h4] at hbody
                exact absurd hbody (by simp)
            · rw [if_neg h3] at hbody
              exact absurd hbody (by simp)
        · rintro ⟨d, hlen, hstd, he'⟩
          subst he'
          refine ⟨d, ?_, ?_⟩
          · rw [mem_uniqueFirst]
            have hne : ((txs.filter isDebit).filter fun t => t.description = d) ≠ [] := by
              intro hnil
              rw [hnil] at hlen
              simp at hlen
            obtain ⟨t, ht⟩ := List.exists_mem_of_ne_nil _ hne
            have hmem := List.mem_filter.mp ht
            exact List.mem_map.mpr ⟨t, hmem.1, by simpa using hmem.2⟩
          · rw [if_neg (by omega), if_pos (by rw [groupIntervals_length]; omega),
              if_pos ((npStdLe_iff _ _).mpr hstd)]
  · have hdeb : rentTxs.filter isDebit = rentTxs := by
      norm_num [rentTxs, mkTx, isDebit, List.filter_cons]
    have hgrp : (rentTxs.filter fun t => t.description = "Rent Payment") = rentTxs := by
      norm_num [rentTxs, mkTx, List.filter_cons]
    have hdates : rentTxs.map dateDays = [738580, 738610, 738640] := by
      norm_num [rentTxs, mkTx, dateDays, DateTime.toDays, toOrdinal, daysBeforeMonth,
        monthLengths, isLeapYear]
    have hsorted : sortedDates rentTxs = [738580, 738610, 738640] := by
      rw [sortedDates, hdates]
      exact List.mergeSort_eq_self (by norm_num)
    have hdescs : rentTxs.map (·.description) = ["Rent Payment", "Rent Payment", "Rent Payment"] := by
      norm_num [rentTxs, mkTx]
    have hivs : groupIntervals rentTxs = [30, 30] := by
      rw [groupIntervals, hsorted]
      norm_num [List.zipWith_cons_cons]
    unfold identify_recurring_expenses
    rw [if_neg (by norm_num [rentTxs]), hdeb, if_neg (by norm_num [rentTxs]), hdescs]
    rw [show uniqueFirst ["Rent Payment", "Rent Payment", "Rent Payment"] = ["Rent Payment"]
      from by simp [uniqueFirst]]
    rw [List.filterMap_cons, hgrp]
    rw [if_neg (by norm_num [rentTxs]), if_pos (by rw [hivs]; norm_num)]
    have hvar : groupVar rentTxs = 0 := by
      simp only [groupVar, hivs]
      norm_num [qMean]
    rw [if_pos (by
      rw [npStdLe_iff, hvar]
      norm_num)]
    have hamounts : rentTxs.map (·.amount) = [1200, 1200, 1200] := by
      norm_num [rentTxs, mkTx]
    have havg : groupAvgInterval rentTxs = 30 := by
      rw [groupAvgInterval, hivs]
      norm_num [qMean]
    have hentry : entryFor rentTxs "Rent Payment" = rentEntry := by
      simp only [entryFor, hgrp, hamounts, havg, hsorted]
      norm_num [qMean, rentEntry]
      norm_num [rentTxs, mkTx, TransactionCategory.value]
    rw [hentry, List.filterMap_nil]

/-- C6, counterexample: two "Gym" debits exactly 30 days apart form a
2-occurrence exact-description group whose single interval has
population standard deviation 0 ≤ 3, yet the detector reports nothing —
the code requires at least 2 intervals, i.e. at least 3 occurrences. -/
theorem identifyRecurring_skips_two_occurrence_groups :
    2 ≤ ((gymTxs.filter isDebit).filter fun t => t.description = "Gym").length ∧
    (0 ≤ (3 : ℚ) ∧
      groupVar ((gymTxs.filter isDebit).filter fun t => t.description = "Gym") ≤ 3 * 3) ∧
    identify_recurring_expenses gymTxs 3 = [] := by
  have hdeb : gymTxs.filter isDebit = gymTxs := by
    norm_num [gymTxs, mkTx, isDebit, List.filter_cons]
  have hgrp : (gymTxs.filter fun t => t.description = "Gym") = gymTxs := by
    norm_num [gymTxs, mkTx, List.filter_cons]
  have hdates : gymTxs.map dateDays = [738580, 738610] := by
    norm_num [gymTxs, mkTx, dateDays, DateTime.toDays, toOrdinal, daysBeforeMonth,
      monthLengths, isLeapYear]
  have hsorted : sortedDates gymTxs = [738580, 738610] := by
    rw [sortedDates, hdates]
    exact List.mergeSort_eq_self (by norm_num)
  have hivs : groupIntervals gymTxs = [30] := by
    rw [groupIntervals, hsorted]
    norm_num [List.zipWith_cons_cons]
  refine ⟨?_, ⟨by norm_num, ?_⟩, ?_⟩
  · rw [hdeb, hgrp]
    norm_num [gymTxs]
  · rw [hdeb, hgrp]
    have hvar : groupVar gymTxs = 0 := by
      simp only [groupVar, hivs]
      norm_num [qMean]
    rw [hvar]
    norm_num
  · have hdescs : gymTxs.map (·.description) = ["Gym", "Gym"] := by
      norm_num [gymTxs, mkTx]
    unfold identify_recurring_expenses
    rw [if_neg (by norm_num [gymTxs]), hdeb, if_neg (by norm_num [gymTxs]), hdescs]
    rw [show uniqueFirst ["Gym", "Gym"] = ["Gym"] from by simp [uniqueFirst]]
    rw [List.filterMap_cons, hgrp]
    rw [if_neg (by norm_num [gymTxs]), if_neg (by rw [hivs]; norm_num)]
    rw [List.filterMap_nil]

end FinanceCopilot
